import Mathlib

/-!
Shallow embedding of the kick-recorder motion-fingerprint pipeline
(`src/js/normalization.js` and `src/js/recorder.js`) together with theorems
settling the specification's claims about it.

Modelling conventions: JavaScript numbers are idealized as real numbers;
JavaScript arrays are lists, indexed through `List.getD` with a default
element (the source only indexes in bounds on valid input); objects with
mutable fields become explicit state values threaded through the functions
that the source mutates them in.
-/

noncomputable section

/-- A landmark point, mirroring the `{x, y, z, visibility}` objects of the
source.  The source also builds plain `{x, y, z}` points (midpoints, the
centroid); those are represented with `visibility = 0`, a field none of the
code ever reads on such points. -/
@[ext]
structure Pt3 where
  x : ℝ
  y : ℝ
  z : ℝ
  visibility : ℝ

/-- Default point used for (never taken) out-of-range list indexing. -/
def ptZero : Pt3 := ⟨0, 0, 0, 0⟩

/-- Source helper `getMidPoint` (identical in both source files). -/
def getMidPoint (p1 p2 : Pt3) : Pt3 :=
  ⟨(p1.x + p2.x) / 2, (p1.y + p2.y) / 2, (p1.z + p2.z) / 2, 0⟩

/-- Source helper `getDistance`: `Math.sqrt` of the sum of squared
coordinate differences (recorder.js inlines the same formula). -/
def getDistance (p1 p2 : Pt3) : ℝ :=
  Real.sqrt ((p1.x - p2.x) ^ 2 + (p1.y - p2.y) ^ 2 + (p1.z - p2.z) ^ 2)

/-- JavaScript `Math.atan2 y x`, embedded as the argument of the complex
number `x + y*I` (same range `(-pi, pi]`, and `atan2 0 0 = 0`). -/
def atan2 (y x : ℝ) : ℝ := Complex.arg ⟨x, y⟩

/-- `resampleTimeSeries` from `src/js/recorder.js`: resample a sequence of
numeric vectors to `targetLen` entries by component-wise linear
interpolation over equally spaced virtual positions.

The case `targetLen = 1` with at least two input elements is the source's
error path: there `step = (data.length - 1) / 0` is `Infinity`,
`originalIndex = 0 * Infinity` is `NaN`, `data[NaN]` is `undefined`, and
the `frameLow.map` call throws a TypeError.  That thrown exception is
modelled as `none`; every other path performs only finite real arithmetic
(for `targetLen = 0` the source's negative `step` is never used, since the
loop body does not run) and is modelled directly. -/
def resampleTimeSeries (data : List (List ℝ)) (targetLen : ℕ) :
    Option (List (List ℝ)) :=
  if data.length = 0 then some []
  else if data.length = 1 then some (List.replicate targetLen (data.getD 0 []))
  else if targetLen = 1 then none
  else
    let step : ℝ := ((data.length : ℝ) - 1) / ((targetLen : ℝ) - 1)
    some ((List.range targetLen).map fun (i : ℕ) =>
      let originalIndex : ℝ := (i : ℝ) * step
      let indexLow : ℤ := ⌊originalIndex⌋
      let indexHigh : ℤ := min ⌈originalIndex⌉ ((data.length : ℤ) - 1)
      let frac : ℝ := originalIndex - (indexLow : ℝ)
      let frameLow := data.getD indexLow.toNat []
      let frameHigh := data.getD indexHigh.toNat []
      List.zipWith (fun val hval => val + (hval - val) * frac) frameLow frameHigh)

lemma getD_range_map {α : Type} (f : ℕ → α) (n i : ℕ) (d : α) (h : i < n) :
    (((List.range n).map f).getD i d) = f i := by
  rw [List.getD_eq_getElem _ d (by simpa using h)]
  simp

lemma zipWith_lerp_zero (l : List ℝ) :
    List.zipWith (fun val hval => val + (hval - val) * (0 : ℝ)) l l = l := by
  induction l with
  | nil => rfl
  | cons a t ih => simp [ih]

/-- C5 counterexample: at target length 1 with a two-element input the
source throws (step is `Infinity`, the index is `NaN`, `data[NaN]` is
`undefined` and `.map` raises a TypeError), modelled as `none` — so the
resampler does not return exactly N elements for every target length N. -/
theorem c5_resample_counterexample :
    resampleTimeSeries [[(0 : ℝ)], [(2 : ℝ)]] 1 = none := by
  rw [resampleTimeSeries]
  norm_num

/-- C5 (amended): except for the error path at target length 1 with at
least two input elements, `resampleTimeSeries` follows the specified case
split: empty input gives empty output; a one-element input gives
`targetLen` copies of that element; otherwise the call succeeds and the
output has exactly `targetLen` entries, the entry at position `i` being
the component-wise linear interpolation between the two input elements
bracketing virtual position `i * (len-1)/(targetLen-1)`, with the upper
bracketing index clamped to the last valid index. -/
theorem c5_resample_cases (n : ℕ) (v : List ℝ) (data : List (List ℝ))
    (hlen : 2 ≤ data.length) (hn : n ≠ 1) (i : ℕ) (hi : i < n) :
    resampleTimeSeries [] n = some [] ∧
    resampleTimeSeries [v] n = some (List.replicate n v) ∧
    (∃ out, resampleTimeSeries data n = some out ∧
      out.length = n ∧
      out.getD i [] =
        List.zipWith
          (fun a b => a + (b - a) *
            ((i : ℝ) * (((data.length : ℝ) - 1) / ((n : ℝ) - 1)) -
              ((⌊(i : ℝ) * (((data.length : ℝ) - 1) / ((n : ℝ) - 1))⌋ : ℤ) : ℝ)))
          (data.getD (⌊(i : ℝ) * (((data.length : ℝ) - 1) / ((n : ℝ) - 1))⌋).toNat [])
          (data.getD
            (min ⌈(i : ℝ) * (((data.length : ℝ) - 1) / ((n : ℝ) - 1))⌉
              ((data.length : ℤ) - 1)).toNat [])) := by
  refine ⟨by simp [resampleTimeSeries], by simp [resampleTimeSeries], ?_⟩
  rw [resampleTimeSeries]
  rw [if_neg (by omega), if_neg (by omega), if_neg hn]
  refine ⟨_, rfl, ?_, ?_⟩
  · simp
  · rw [getD_range_map _ n i [] hi]

/-- Witness for C5 at a concrete input. -/
theorem c5_resample_cases_witness :
    resampleTimeSeries ([] : List (List ℝ)) 3 = some [] ∧
    resampleTimeSeries [[(5 : ℝ)]] 3 = some (List.replicate 3 [(5 : ℝ)]) ∧
    (∃ out, resampleTimeSeries [[(0 : ℝ)], [(2 : ℝ)]] 3 = some out ∧
      out.length = 3 ∧ out.getD 1 [] = [(1 : ℝ)]) := by
  have h := c5_resample_cases 3 [(5 : ℝ)] [[(0 : ℝ)], [(2 : ℝ)]] (by simp)
    (by norm_num) 1 (by norm_num)
  refine ⟨h.1, h.2.1, ?_⟩
  obtain ⟨out, hsome, hlen, hget⟩ := h.2.2
  refine ⟨out, hsome, hlen, ?_⟩
  rw [hget]
  have hpos : ((1 : ℕ) : ℝ) * ((((2 : ℕ) : ℝ) - 1) / (((3 : ℕ) : ℝ) - 1)) = 1 / 2 := by
    norm_num
  have hfl : ⌊(1 / 2 : ℝ)⌋ = 0 := by
    rw [Int.floor_eq_zero_iff]
    constructor <;> norm_num
  have hcl : ⌈(1 / 2 : ℝ)⌉ = 1 := by
    rw [Int.ceil_eq_iff]
    constructor <;> norm_num
  simp only [List.length_cons, List.length_nil, hpos, hfl, hcl]
  norm_num [List.getD]

/-- C6: resampling a sequence of length at least 2 to its own length
returns it unchanged. -/
theorem c6_resample_stable (x : List (List ℝ)) (hx : 2 ≤ x.length) :
    resampleTimeSeries x x.length = some x := by
  rw [resampleTimeSeries]
  rw [if_neg (by omega), if_neg (by omega), if_neg (by omega)]
  refine congrArg some ?_
  have hstep : ((x.length : ℝ) - 1) / ((x.length : ℝ) - 1) = 1 := by
    apply div_self
    have : (2 : ℝ) ≤ (x.length : ℝ) := by exact_mod_cast hx
    linarith
  apply List.ext_getElem
  · simp
  · intro i h1 h2
    simp only [List.getElem_map, List.getElem_range]
    rw [hstep, mul_one, Int.floor_natCast, Int.ceil_natCast]
    have hmin : min (i : ℤ) ((x.length : ℤ) - 1) = (i : ℤ) := by
      apply min_eq_left
      have : i < x.length := by simpa using h1
      omega
    rw [hmin, Int.toNat_natCast, Int.cast_natCast, sub_self]
    have hi : i < x.length := by simpa using h1
    rw [List.getD_eq_getElem _ _ hi]
    exact zipWith_lerp_zero _

/-- Witness for C6 at a concrete input. -/
theorem c6_resample_stable_witness :
    resampleTimeSeries [[(1 : ℝ)], [(2 : ℝ)]] 2 = some [[(1 : ℝ)], [(2 : ℝ)]] :=
  c6_resample_stable [[(1 : ℝ)], [(2 : ℝ)]] (by simp)

/-- The fixed left/right landmark index pairs swapped by `mirrorPose`
(`swapPairs` in `src/js/recorder.js`). -/
def swapPairs : List (ℕ × ℕ) :=
  [(11, 12), (13, 14), (15, 16),
   (17, 18), (19, 20), (21, 22),
   (23, 24), (25, 26), (27, 28),
   (29, 30), (31, 32)]

/-- The index a landmark is read from after the left/right swaps: the
partner index for a member of a swap pair, the index itself otherwise. -/
def swapIdx (i : ℕ) : ℕ :=
  match swapPairs.find? (fun p => p.1 == i || p.2 == i) with
  | some p => if p.1 = i then p.2 else p.1
  | none => i

/-- Negation of the lateral (x) coordinate of one landmark. -/
def negX (p : Pt3) : Pt3 := ⟨-p.x, p.y, p.z, p.visibility⟩

/-- `mirrorPose` from `src/js/recorder.js`: negate every landmark's x
coordinate, then swap the fixed left/right index pairs.  The source
mutates the array in place; functionally, the landmark at output index `i`
is the x-negated input landmark at index `swapIdx i`. -/
def mirrorPose (pose : List Pt3) : List Pt3 :=
  (List.range pose.length).map fun i => negX (pose.getD (swapIdx i) ptZero)

lemma swapIdx_invol : ∀ i < 33, swapIdx (swapIdx i) = i ∧ swapIdx i < 33 := by
  decide

lemma swapIdx_of_ge (i : ℕ) (h : 33 ≤ i) : swapIdx i = i := by
  have hfind : swapPairs.find? (fun p => p.1 == i || p.2 == i) = none := by
    rw [List.find?_eq_none]
    intro p hp
    simp only [swapPairs, List.mem_cons, List.not_mem_nil, or_false] at hp
    rcases hp with h1 | h1 | h1 | h1 | h1 | h1 | h1 | h1 | h1 | h1 | h1 <;>
      subst h1 <;> simp <;> omega
  rw [swapIdx, hfind]

lemma swapIdx_invol_all (i : ℕ) : swapIdx (swapIdx i) = i := by
  by_cases h : i < 33
  · exact (swapIdx_invol i h).1
  · rw [swapIdx_of_ge i (by omega), swapIdx_of_ge i (by omega)]

lemma swapIdx_lt (i : ℕ) (h : i < 33) : swapIdx i < 33 := (swapIdx_invol i h).2

lemma length_mirrorPose (pose : List Pt3) : (mirrorPose pose).length = pose.length := by
  simp [mirrorPose]

lemma getElem_mirrorPose (pose : List Pt3) (i : ℕ) (h : i < (mirrorPose pose).length) :
    (mirrorPose pose)[i] = negX (pose.getD (swapIdx i) ptZero) := by
  simp [mirrorPose]

/-- C7: stance mirroring is an involution on 33-landmark poses. -/
theorem c7_mirror_involution (pose : List Pt3) (h : pose.length = 33) :
    mirrorPose (mirrorPose pose) = pose := by
  apply List.ext_get
  · rw [length_mirrorPose, length_mirrorPose]
  · intro i h1 h2
    have hi : i < 33 := by
      rw [length_mirrorPose, length_mirrorPose, h] at h1; exact h1
    rw [List.get_eq_getElem, getElem_mirrorPose]
    have hlen1 : swapIdx i < (mirrorPose pose).length := by
      rw [length_mirrorPose, h]; exact swapIdx_lt i hi
    rw [List.getD_eq_getElem _ _ hlen1, getElem_mirrorPose]
    rw [swapIdx_invol_all i]
    rw [List.getD_eq_getElem _ _ h2]
    rw [negX, negX]
    ext <;> simp

/-- Witness for C7 at a concrete input. -/
theorem c7_mirror_involution_witness :
    mirrorPose (mirrorPose (List.replicate 33 ptZero)) = List.replicate 33 ptZero :=
  c7_mirror_involution (List.replicate 33 ptZero) (by simp)

/-- State of `LowPassFilter` from `src/js/normalization.js`: `s` is the last
filtered value (`undefined` before the first sample, since the constructor
resets it), `w` the last raw value, and `a` the stored alpha coefficient
(always overwritten by `filterWithAlpha` before the filter step uses it). -/
structure LowPassFilter where
  s : Option ℝ
  w : Option ℝ
  a : ℝ

/-- `LowPassFilter.filterWithAlpha`: store the alpha, filter one value, and
return the result together with the updated state. -/
def LowPassFilter.filterWithAlpha (f : LowPassFilter) (value alpha : ℝ) : ℝ × LowPassFilter :=
  let result := match f.s with
    | none => value
    | some s0 => alpha * value + (1 - alpha) * s0
  (result, ⟨some result, some value, alpha⟩)

/-- Constructor state `new LowPassFilter(alpha)`. -/
def LowPassFilter.init (alpha : ℝ) : LowPassFilter := ⟨none, none, alpha⟩

/-- State of `OneEuroFilter` from `src/js/normalization.js`. -/
structure OneEuroFilter where
  freq : ℝ
  minCutoff : ℝ
  beta : ℝ
  dCutoff : ℝ
  x : LowPassFilter
  dx : LowPassFilter
  lastTime : Option ℝ

/-- `OneEuroFilter.alpha(cutoff)` evaluated at a sampling frequency: the
RC-to-exponential low-pass coefficient of the source. -/
def oneEuroAlpha (freq cutoff : ℝ) : ℝ :=
  let te := 1 / freq
  let tau := 1 / (2 * Real.pi * cutoff)
  1 / (1 + tau / te)

/-- Constructor state `new OneEuroFilter(freq, minCutoff, beta, dCutoff)`. -/
def OneEuroFilter.init (freq minCutoff beta dCutoff : ℝ) : OneEuroFilter :=
  ⟨freq, minCutoff, beta, dCutoff,
   LowPassFilter.init (oneEuroAlpha freq minCutoff),
   LowPassFilter.init (oneEuroAlpha freq dCutoff), none⟩

/-- `OneEuroFilter.filter(value, timestamp)`: re-estimate the sampling
frequency from the timestamp delta (unguarded, exactly as in the source),
smooth the raw derivative, derive the adaptive cutoff, filter the value, and
return the result with the updated state. -/
def OneEuroFilter.filter (f : OneEuroFilter) (value timestamp : ℝ) : ℝ × OneEuroFilter :=
  let freq := match f.lastTime with
    | some lastTime => 1 / (timestamp - lastTime)
    | none => f.freq
  let dvalue := match f.x.w with
    | some w0 => (value - w0) * freq
    | none => 0
  let dres := f.dx.filterWithAlpha dvalue (oneEuroAlpha freq f.dCutoff)
  let cutoff := f.minCutoff + f.beta * |dres.1|
  let xres := f.x.filterWithAlpha value (oneEuroAlpha freq cutoff)
  (xres.1,
   { freq := freq, minCutoff := f.minCutoff, beta := f.beta, dCutoff := f.dCutoff,
     x := xres.2, dx := dres.2, lastTime := some timestamp })

/-- The per-landmark filter bank of `NormalizationEngine`: 33 landmarks,
one one-Euro filter per axis. -/
def EngineFilters : Type := Fin 33 → OneEuroFilter × OneEuroFilter × OneEuroFilter

/-- Constructor state of `NormalizationEngine` (default frequency 30 Hz,
`minCutoff = 1.0`, `beta = 0.0`, `dCutoff = 1.0`). -/
def initFilters : EngineFilters := fun _ =>
  (OneEuroFilter.init 30 1 0 1, OneEuroFilter.init 30 1 0 1, OneEuroFilter.init 30 1 0 1)

/-- Recursion underlying `NormalizationEngine.applyFilter`: landmark `i` is
filtered through the filter triple at index `i` (passthrough for `i >= 33`,
the source's range guard), threading the mutated filter bank.  The
`visibility || v || 0` fallback of the source reduces to the visibility
itself over real numbers (a zero visibility stays zero). -/
def applyFilterAux (t : ℝ) : EngineFilters → ℕ → List Pt3 → List Pt3 × EngineFilters
  | fs, _, [] => ([], fs)
  | fs, i, pt :: rest =>
    if h : i < 33 then
      let trio := fs ⟨i, h⟩
      let rx := trio.1.filter pt.x t
      let ry := trio.2.1.filter pt.y t
      let rz := trio.2.2.filter pt.z t
      let fs2 : EngineFilters := Function.update fs ⟨i, h⟩ (rx.2, ry.2, rz.2)
      let res := applyFilterAux t fs2 (i + 1) rest
      (⟨rx.1, ry.1, rz.1, pt.visibility⟩ :: res.1, res.2)
    else
      let res := applyFilterAux t fs (i + 1) rest
      (pt :: res.1, res.2)

/-- `NormalizationEngine.applyFilter`. -/
def applyFilter (fs : EngineFilters) (landmarks : List Pt3) (t : ℝ) :
    List Pt3 × EngineFilters :=
  applyFilterAux t fs 0 landmarks

/-- The segment table of `calculateCOG` (Dempster mass fractions): each
entry lists the landmark indices whose mean is the segment center, with the
segment's mass weight. -/
def segments : List (List ℕ × ℝ) :=
  [([0], 0.07),
   ([11, 13], 0.028), ([12, 14], 0.028),
   ([13, 15], 0.016), ([14, 16], 0.016),
   ([15, 17, 19, 21], 0.006), ([16, 18, 20, 22], 0.006),
   ([23, 25], 0.10), ([24, 26], 0.10),
   ([25, 27], 0.0465), ([26, 28], 0.0465),
   ([27, 29, 31], 0.0145), ([28, 30, 32], 0.0145)]

/-- `NormalizationEngine.calculateCOG`: trunk center (weight 0.50) plus the
weighted per-segment centers, all divided by the accumulated mass. -/
def calculateCOG (pose : List Pt3) : Pt3 :=
  let shoulderMid := getMidPoint (pose.getD 11 ptZero) (pose.getD 12 ptZero)
  let hipMid := getMidPoint (pose.getD 23 ptZero) (pose.getD 24 ptZero)
  let trunkCenter := getMidPoint shoulderMid hipMid
  let trunkWeight : ℝ := 0.50
  let acc0 : ℝ × ℝ × ℝ × ℝ :=
    (trunkCenter.x * trunkWeight, trunkCenter.y * trunkWeight,
     trunkCenter.z * trunkWeight, trunkWeight)
  let acc := segments.foldl (fun acc seg =>
    let n : ℝ := (seg.1.length : ℝ)
    let segX := (seg.1.map (fun idx => (pose.getD idx ptZero).x)).sum / n
    let segY := (seg.1.map (fun idx => (pose.getD idx ptZero).y)).sum / n
    let segZ := (seg.1.map (fun idx => (pose.getD idx ptZero).z)).sum / n
    (acc.1 + segX * seg.2, acc.2.1 + segY * seg.2,
     acc.2.2.1 + segZ * seg.2, acc.2.2.2 + seg.2)) acc0
  ⟨acc.1 / acc.2.2.2, acc.2.1 / acc.2.2.2, acc.2.2.1 / acc.2.2.2, 0⟩

/-- Hip-midpoint of a pose (`hipCenter` in `normalizePose`). -/
def hipCenterOf (pose : List Pt3) : Pt3 :=
  getMidPoint (pose.getD 23 ptZero) (pose.getD 24 ptZero)

/-- Translation step of `normalizePose`: move the hip-midpoint to the origin. -/
def translatedOf (pose : List Pt3) : List Pt3 :=
  pose.map fun p =>
    ⟨p.x - (hipCenterOf pose).x, p.y - (hipCenterOf pose).y,
     p.z - (hipCenterOf pose).z, p.visibility⟩

/-- Yaw angle of the translated hip line (`angleY` in `normalizePose`):
`atan2(dz, dx)` of the left-hip minus right-hip vector. -/
def angleYOf (tp : List Pt3) : ℝ :=
  atan2 ((tp.getD 23 ptZero).z - (tp.getD 24 ptZero).z)
    ((tp.getD 23 ptZero).x - (tp.getD 24 ptZero).x)

/-- `rotateY` from `normalizePose`: rotation about the vertical axis. -/
def rotateY (p : Pt3) (theta : ℝ) : Pt3 :=
  ⟨p.x * Real.cos theta - p.z * Real.sin theta, p.y,
   p.x * Real.sin theta + p.z * Real.cos theta, p.visibility⟩

/-- The pose after the translation and rotation steps of `normalizePose`. -/
def rotatedOf (pose : List Pt3) : List Pt3 :=
  (translatedOf pose).map fun p => rotateY p (-(angleYOf (translatedOf pose)))

/-- Spine length measured on the rotated pose (`spineLength` before the
`|| 1.0` guard): distance from the rotated shoulder-midpoint to the origin. -/
def spineLengthOf (pose : List Pt3) : ℝ :=
  getDistance
    (getMidPoint ((rotatedOf pose).getD 11 ptZero) ((rotatedOf pose).getD 12 ptZero))
    ⟨0, 0, 0, 0⟩

/-- `NormalizationEngine.normalizePose`: translate the hip-midpoint to the
origin, rotate the hip line onto the x axis, scale the spine length to 1
(with the source's `|| 1.0` divide-by-zero guard), and apply the same
transform to the centroid. -/
def normalizePose (pose : List Pt3) (cog : Pt3) : List Pt3 × Pt3 :=
  let hipCenter := hipCenterOf pose
  let normCog1 : Pt3 :=
    ⟨cog.x - hipCenter.x, cog.y - hipCenter.y, cog.z - hipCenter.z, 0⟩
  let normCog2 := rotateY normCog1 (-(angleYOf (translatedOf pose)))
  let rp := rotatedOf pose
  let spineLength := if spineLengthOf pose = 0 then 1 else spineLengthOf pose
  (rp.map fun p =>
     ⟨p.x / spineLength, p.y / spineLength, p.z / spineLength, p.visibility⟩,
   ⟨normCog2.x / spineLength, normCog2.y / spineLength, normCog2.z / spineLength, 0⟩)

/-- `NormalizationEngine.extractFeaturesV3`: the fixed 24-element feature
vector (layout of spec section 4.4). -/
def extractFeaturesV3 (pose : List Pt3) (cog : Pt3) : List ℝ :=
  let p := fun i => pose.getD i ptZero
  [(p 19).x, (p 19).y, (p 19).z,
   (p 20).x, (p 20).y, (p 20).z,
   (p 31).x, (p 31).y, (p 31).z,
   (p 32).x, (p 32).y, (p 32).z,
   (p 25).x, (p 25).y, (p 25).z,
   (p 26).x, (p 26).y, (p 26).z,
   0,
   atan2 ((p 11).z - (p 12).z) ((p 11).x - (p 12).x) * (180 / Real.pi),
   cog.x, cog.z,
   getDistance (p 0) (p 19),
   getDistance (p 0) (p 20)]

/-- `NormalizationEngine.process`: reject a missing landmark list or one
with fewer than 33 points, otherwise smooth, estimate the centroid,
normalize, and extract features, returning them with the updated filter
bank. -/
def process (fs : EngineFilters) (landmarks : Option (List Pt3)) (timestamp : ℝ) :
    Option (List ℝ) × EngineFilters :=
  match landmarks with
  | none => (none, fs)
  | some lms =>
    if lms.length < 33 then (none, fs)
    else
      let sm := applyFilter fs lms timestamp
      let cog := calculateCOG sm.1
      let nd := normalizePose sm.1 cog
      (some (extractFeaturesV3 nd.1 nd.2), sm.2)

/-- C1: for every pose and centroid, the feature extractor returns exactly
24 numbers in the fixed layout of spec section 4.4: indices 0-17 the x,y,z
of landmarks 19, 20, 31, 32, 25, 26 in that order; index 18 the constant 0;
index 19 the shoulder-line `atan2(dz, dx)` in degrees; indices 20-21 the
centroid's x and z; indices 22-23 the distances from landmark 0 to
landmarks 19 and 20. -/
theorem c1_feature_layout (pose : List Pt3) (cog : Pt3) :
    (extractFeaturesV3 pose cog).length = 24 ∧
    (extractFeaturesV3 pose cog).getD 0 0 = (pose.getD 19 ptZero).x ∧
    (extractFeaturesV3 pose cog).getD 1 0 = (pose.getD 19 ptZero).y ∧
    (extractFeaturesV3 pose cog).getD 2 0 = (pose.getD 19 ptZero).z ∧
    (extractFeaturesV3 pose cog).getD 3 0 = (pose.getD 20 ptZero).x ∧
    (extractFeaturesV3 pose cog).getD 4 0 = (pose.getD 20 ptZero).y ∧
    (extractFeaturesV3 pose cog).getD 5 0 = (pose.getD 20 ptZero).z ∧
    (extractFeaturesV3 pose cog).getD 6 0 = (pose.getD 31 ptZero).x ∧
    (extractFeaturesV3 pose cog).getD 7 0 = (pose.getD 31 ptZero).y ∧
    (extractFeaturesV3 pose cog).getD 8 0 = (pose.getD 31 ptZero).z ∧
    (extractFeaturesV3 pose cog).getD 9 0 = (pose.getD 32 ptZero).x ∧
    (extractFeaturesV3 pose cog).getD 10 0 = (pose.getD 32 ptZero).y ∧
    (extractFeaturesV3 pose cog).getD 11 0 = (pose.getD 32 ptZero).z ∧
    (extractFeaturesV3 pose cog).getD 12 0 = (pose.getD 25 ptZero).x ∧
    (extractFeaturesV3 pose cog).getD 13 0 = (pose.getD 25 ptZero).y ∧
    (extractFeaturesV3 pose cog).getD 14 0 = (pose.getD 25 ptZero).z ∧
    (extractFeaturesV3 pose cog).getD 15 0 = (pose.getD 26 ptZero).x ∧
    (extractFeaturesV3 pose cog).getD 16 0 = (pose.getD 26 ptZero).y ∧
    (extractFeaturesV3 pose cog).getD 17 0 = (pose.getD 26 ptZero).z ∧
    (extractFeaturesV3 pose cog).getD 18 0 = 0 ∧
    (extractFeaturesV3 pose cog).getD 19 0 =
      atan2 ((pose.getD 11 ptZero).z - (pose.getD 12 ptZero).z)
        ((pose.getD 11 ptZero).x - (pose.getD 12 ptZero).x) * (180 / Real.pi) ∧
    (extractFeaturesV3 pose cog).getD 20 0 = cog.x ∧
    (extractFeaturesV3 pose cog).getD 21 0 = cog.z ∧
    (extractFeaturesV3 pose cog).getD 22 0 =
      getDistance (pose.getD 0 ptZero) (pose.getD 19 ptZero) ∧
    (extractFeaturesV3 pose cog).getD 23 0 =
      getDistance (pose.getD 0 ptZero) (pose.getD 20 ptZero) :=
  ⟨rfl, rfl, rfl, rfl, rfl, rfl, rfl, rfl, rfl, rfl, rfl, rfl, rfl,
   rfl, rfl, rfl, rfl, rfl, rfl, rfl, rfl, rfl, rfl, rfl, rfl⟩

/-- C8: a missing landmark list, or one with fewer than 33 points, makes
`process` return no feature vector and leave the filter bank (the only
cross-call state) unchanged. -/
theorem c8_process_rejects_short (fs : EngineFilters) (landmarks : Option (List Pt3))
    (t : ℝ) (h : ∀ lms, landmarks = some lms → lms.length < 33) :
    process fs landmarks t = (none, fs) := by
  cases landmarks with
  | none => rfl
  | some lms =>
    rw [process]
    rw [if_pos (h lms rfl)]

/-- Witness for C8 at a concrete input: a 32-point frame fed to the freshly
constructed engine. -/
theorem c8_process_rejects_short_witness :
    process initFilters (some (List.replicate 32 ptZero)) 0 = (none, initFilters) :=
  c8_process_rejects_short initFilters (some (List.replicate 32 ptZero)) 0
    (by
      intro lms hl
      injection hl with h2
      subst h2
      simp)

lemma getD_map_pt (f : Pt3 → Pt3) (l : List Pt3) (i : ℕ) (h : i < l.length) :
    (l.map f).getD i ptZero = f (l.getD i ptZero) := by
  rw [List.getD_eq_getElem _ _ (by simpa using h), List.getElem_map,
    List.getD_eq_getElem _ _ h]

lemma length_translatedOf (pose : List Pt3) :
    (translatedOf pose).length = pose.length := by
  simp [translatedOf]

lemma length_rotatedOf (pose : List Pt3) :
    (rotatedOf pose).length = pose.length := by
  simp [rotatedOf, length_translatedOf]

lemma atan2_mix_zero (y x : ℝ) :
    -(x * Real.sin (atan2 y x)) + y * Real.cos (atan2 y x) = 0 := by
  by_cases h : (⟨x, y⟩ : ℂ) = 0
  · rw [Complex.ext_iff] at h
    simp only [Complex.zero_re, Complex.zero_im] at h
    rw [h.1, h.2]
    ring
  · rw [atan2, Complex.sin_arg, Complex.cos_arg h]
    show -(x * (y / Complex.abs ⟨x, y⟩)) + y * (x / Complex.abs ⟨x, y⟩) = 0
    ring

lemma translated_getD (pose : List Pt3) (i : ℕ) (hi : i < pose.length) :
    (translatedOf pose).getD i ptZero =
      ⟨(pose.getD i ptZero).x - (hipCenterOf pose).x,
       (pose.getD i ptZero).y - (hipCenterOf pose).y,
       (pose.getD i ptZero).z - (hipCenterOf pose).z,
       (pose.getD i ptZero).visibility⟩ := by
  simp only [translatedOf]
  exact getD_map_pt _ pose i hi

lemma rotated_getD (pose : List Pt3) (i : ℕ) (hi : i < pose.length) :
    (rotatedOf pose).getD i ptZero =
      rotateY ((translatedOf pose).getD i ptZero)
        (-(angleYOf (translatedOf pose))) := by
  simp only [rotatedOf]
  exact getD_map_pt _ _ i (by rw [length_translatedOf]; exact hi)

lemma angleY_translated (pose : List Pt3) (h33 : 33 ≤ pose.length) :
    angleYOf (translatedOf pose) =
      atan2 ((pose.getD 23 ptZero).z - (pose.getD 24 ptZero).z)
        ((pose.getD 23 ptZero).x - (pose.getD 24 ptZero).x) := by
  rw [angleYOf, translated_getD pose 23 (by omega), translated_getD pose 24 (by omega)]
  congr 1 <;> ring

lemma rotated_hip_z (pose : List Pt3) (h33 : 33 ≤ pose.length) :
    ((rotatedOf pose).getD 23 ptZero).z = 0 ∧
    ((rotatedOf pose).getD 24 ptZero).z = 0 := by
  have key := atan2_mix_zero ((pose.getD 23 ptZero).z - (pose.getD 24 ptZero).z)
    ((pose.getD 23 ptZero).x - (pose.getD 24 ptZero).x)
  constructor
  · rw [rotated_getD pose 23 (by omega), rotateY]
    simp only [translated_getD pose 23 (by omega), angleY_translated pose h33,
      hipCenterOf, getMidPoint, Real.sin_neg, Real.cos_neg]
    linear_combination (1 / 2 : ℝ) * key
  · rw [rotated_getD pose 24 (by omega), rotateY]
    simp only [translated_getD pose 24 (by omega), angleY_translated pose h33,
      hipCenterOf, getMidPoint, Real.sin_neg, Real.cos_neg]
    linear_combination (-(1 / 2) : ℝ) * key

lemma scaled_dist_one (p q : Pt3) (s : ℝ) (hs : 0 < s)
    (hd : getDistance (getMidPoint p q) ⟨0, 0, 0, 0⟩ = s) :
    getDistance
      (getMidPoint ⟨p.x / s, p.y / s, p.z / s, p.visibility⟩
        ⟨q.x / s, q.y / s, q.z / s, q.visibility⟩) ⟨0, 0, 0, 0⟩ = 1 := by
  rw [getDistance] at hd ⊢
  simp only [getMidPoint] at hd ⊢
  have hE : ((p.x / s + q.x / s) / 2 - 0) ^ 2 + ((p.y / s + q.y / s) / 2 - 0) ^ 2 +
      ((p.z / s + q.z / s) / 2 - 0) ^ 2 =
      (((p.x + q.x) / 2 - 0) ^ 2 + ((p.y + q.y) / 2 - 0) ^ 2 +
        ((p.z + q.z) / 2 - 0) ^ 2) * (1 / s) ^ 2 := by
    ring
  rw [hE, Real.sqrt_mul (by positivity), Real.sqrt_sq (by positivity), hd]
  field_simp

/-- C2: for a pose with at least 33 landmarks whose measured (post-rotation)
spine length is nonzero, the normalized pose has both hip landmarks at
depth (z) exactly 0 and a shoulder-midpoint at distance exactly 1 from the
origin (the normalized hip-midpoint), i.e. spine length 1. -/
theorem c2_normalize_hips_spine (pose : List Pt3) (cog : Pt3)
    (h33 : 33 ≤ pose.length) (hnd : spineLengthOf pose ≠ 0) :
    ((normalizePose pose cog).1.getD 23 ptZero).z = 0 ∧
    ((normalizePose pose cog).1.getD 24 ptZero).z = 0 ∧
    getDistance
      (getMidPoint ((normalizePose pose cog).1.getD 11 ptZero)
        ((normalizePose pose cog).1.getD 12 ptZero)) ⟨0, 0, 0, 0⟩ = 1 := by
  have hpos : 0 < spineLengthOf pose :=
    lt_of_le_of_ne (Real.sqrt_nonneg _) (Ne.symm hnd)
  have hgd : ∀ i, i < pose.length →
      (normalizePose pose cog).1.getD i ptZero =
        ⟨((rotatedOf pose).getD i ptZero).x / spineLengthOf pose,
         ((rotatedOf pose).getD i ptZero).y / spineLengthOf pose,
         ((rotatedOf pose).getD i ptZero).z / spineLengthOf pose,
         ((rotatedOf pose).getD i ptZero).visibility⟩ := by
    intro i hi
    simp only [normalizePose, if_neg hnd]
    exact getD_map_pt _ _ i (by rw [length_rotatedOf]; exact hi)
  refine ⟨?_, ?_, ?_⟩
  · rw [hgd 23 (by omega)]
    show ((rotatedOf pose).getD 23 ptZero).z / spineLengthOf pose = 0
    rw [(rotated_hip_z pose h33).1, zero_div]
  · rw [hgd 24 (by omega)]
    show ((rotatedOf pose).getD 24 ptZero).z / spineLengthOf pose = 0
    rw [(rotated_hip_z pose h33).2, zero_div]
  · rw [hgd 11 (by omega), hgd 12 (by omega)]
    exact scaled_dist_one _ _ _ hpos rfl

/-- Witness pose for C2: hips at (1,0,0) and (-1,0,0), both shoulders at
(0,1,0), every other landmark at the origin. -/
def c2Pose : List Pt3 :=
  (List.range 33).map fun i =>
    if i = 23 then ⟨1, 0, 0, 0⟩
    else if i = 24 then ⟨-1, 0, 0, 0⟩
    else if i = 11 then ⟨0, 1, 0, 0⟩
    else if i = 12 then ⟨0, 1, 0, 0⟩
    else ptZero

lemma getD_range33 (f : ℕ → Pt3) (i : ℕ) (h : i < 33) :
    (((List.range 33).map f).getD i ptZero) = f i :=
  getD_range_map f 33 i ptZero h

lemma c2Pose_spine : spineLengthOf c2Pose = 1 := by
  have h23 : c2Pose.getD 23 ptZero = ⟨1, 0, 0, 0⟩ := by
    rw [c2Pose, getD_range33 _ 23 (by norm_num)]
    norm_num
  have h24 : c2Pose.getD 24 ptZero = ⟨-1, 0, 0, 0⟩ := by
    rw [c2Pose, getD_range33 _ 24 (by norm_num)]
    norm_num
  have h11 : c2Pose.getD 11 ptZero = ⟨0, 1, 0, 0⟩ := by
    rw [c2Pose, getD_range33 _ 11 (by norm_num)]
    norm_num
  have h12 : c2Pose.getD 12 ptZero = ⟨0, 1, 0, 0⟩ := by
    rw [c2Pose, getD_range33 _ 12 (by norm_num)]
    norm_num
  have hlen : (33 : ℕ) ≤ c2Pose.length := by simp [c2Pose]
  have hA : angleYOf (translatedOf c2Pose) = 0 := by
    rw [angleY_translated c2Pose hlen, h23, h24]
    show atan2 (0 - 0) (1 - -1) = 0
    rw [atan2]
    have : ((⟨1 - -1, 0 - 0⟩ : ℂ)) = ((2 : ℝ) : ℂ) := by
      rw [Complex.ext_iff]
      constructor <;> norm_num
    rw [this]
    exact Complex.arg_ofReal_of_nonneg (by norm_num)
  have hr11 : (rotatedOf c2Pose).getD 11 ptZero = ⟨0, 1, 0, 0⟩ := by
    rw [rotated_getD c2Pose 11 (by omega), translated_getD c2Pose 11 (by omega), hA]
    simp only [hipCenterOf, getMidPoint, h23, h24, h11, rotateY, neg_zero,
      Real.cos_zero, Real.sin_zero]
    ext <;> norm_num
  have hr12 : (rotatedOf c2Pose).getD 12 ptZero = ⟨0, 1, 0, 0⟩ := by
    rw [rotated_getD c2Pose 12 (by omega), translated_getD c2Pose 12 (by omega), hA]
    simp only [hipCenterOf, getMidPoint, h23, h24, h12, rotateY, neg_zero,
      Real.cos_zero, Real.sin_zero]
    ext <;> norm_num
  rw [spineLengthOf, hr11, hr12]
  rw [getMidPoint, getDistance]
  norm_num

/-- Witness for C2 at a concrete input. -/
theorem c2_normalize_hips_spine_witness :
    ((normalizePose c2Pose ptZero).1.getD 23 ptZero).z = 0 ∧
    ((normalizePose c2Pose ptZero).1.getD 24 ptZero).z = 0 ∧
    getDistance
      (getMidPoint ((normalizePose c2Pose ptZero).1.getD 11 ptZero)
        ((normalizePose c2Pose ptZero).1.getD 12 ptZero)) ⟨0, 0, 0, 0⟩ = 1 :=
  c2_normalize_hips_spine c2Pose ptZero (by simp [c2Pose])
    (by rw [c2Pose_spine]; norm_num)

/-- C9: the claim that the estimated sampling frequency always stays
positive fails on the code: after a call at timestamp 1 followed by a call
at the earlier timestamp 0, the unguarded `1/(timestamp - lastTime)`
re-estimate makes the stored frequency -1, which is negative. -/
theorem c9_freq_goes_negative :
    ((((OneEuroFilter.init 30 1 0 1).filter 0 1).2).filter 0 0).2.freq = -1 ∧
    ¬ 0 < ((((OneEuroFilter.init 30 1 0 1).filter 0 1).2).filter 0 0).2.freq := by
  have h : ((((OneEuroFilter.init 30 1 0 1).filter 0 1).2).filter 0 0).2.freq = -1 := by
    simp [OneEuroFilter.filter, OneEuroFilter.init]
  exact ⟨h, by rw [h]; norm_num⟩

/-- One captured frame of the recorder's trimmed, pre-processed window:
capture time in milliseconds and the (possibly mirrored) world-landmark
pose. -/
structure Frame where
  time : ℝ
  pose : List Pt3

/-- Default frame used for (never taken) out-of-range indexing. -/
def frameZero : Frame := ⟨0, []⟩

/-- The candidate limbs scanned by `calculateMetrics` (`parts`). -/
def partsList : List (ℕ × String) :=
  [(19, "left_hand"), (20, "right_hand"), (31, "left_foot"), (32, "right_foot")]

/-- Distance of landmark `partId` from the hip-midpoint of its own frame
(the `dist` computed inside `calculateMetrics`). -/
def partDist (frame : Frame) (partId : ℕ) : ℝ :=
  getDistance (frame.pose.getD partId ptZero)
    (getMidPoint (frame.pose.getD 23 ptZero) (frame.pose.getD 24 ptZero))

/-- The inner `history.forEach` of `calculateMetrics`: track one limb's
maximum hip distance and the first frame index attaining it
(`localMaxDist` and `localApexIndex`); `i` is the index of the head of the
remaining frame list. -/
def scanPartAux (partId : ℕ) : ℕ → ℝ × ℕ → List Frame → ℝ × ℕ
  | _, acc, [] => acc
  | i, acc, f :: rest =>
    scanPartAux partId (i + 1)
      (if acc.1 < partDist f partId then (partDist f partId, i) else acc) rest

/-- Scan of one candidate limb over the whole window. -/
def scanPart (history : List Frame) (partId : ℕ) : ℝ × ℕ :=
  scanPartAux partId 0 (0, 0) history

/-- Accumulator of the active-part selection in `calculateMetrics`
(`maxExtension`, `activePartId`, `activePartName`, `apexFrameIndex`). -/
structure Sel where
  maxExtension : ℝ
  activePartId : ℕ
  activePartName : String
  apexFrameIndex : ℕ

/-- One step of the outer `parts.forEach` of `calculateMetrics`: adopt the
candidate if its maximum hip distance strictly exceeds the best so far. -/
def selStep (history : List Frame) (acc : Sel) (part : ℕ × String) : Sel :=
  let r := scanPart history part.1
  if acc.maxExtension < r.1 then ⟨r.1, part.1, part.2, r.2⟩ else acc

/-- The active-part selection of `calculateMetrics`, starting from the
defaults (extension 0, right hand, apex frame 0). -/
def selectActivePart (history : List Frame) : Sel :=
  partsList.foldl (selStep history) ⟨0, 20, "right_hand", 0⟩

/-- JavaScript `parseFloat(v.toFixed(2))`: rounding to two decimal places,
ties rounding up (every value rounded by the source is nonnegative). -/
def round2 (v : ℝ) : ℝ := (⌊v * 100 + 1 / 2⌋ : ℤ) / 100

/-- Time delta in seconds between frames `i-1` and `i` (the `dt` of
`calculateMaxSpeedInRange`). -/
def dtAt (history : List Frame) (i : ℕ) : ℝ :=
  ((history.getD i frameZero).time - (history.getD (i - 1) frameZero).time) / 1000

/-- Displacement of landmark `partId` between frames `i-1` and `i` (the
`dist` of `calculateMaxSpeedInRange`). -/
def distAt (history : List Frame) (partId i : ℕ) : ℝ :=
  getDistance ((history.getD (i - 1) frameZero).pose.getD partId ptZero)
    ((history.getD i frameZero).pose.getD partId ptZero)

/-- `calculateMaxSpeedInRange` from `src/js/recorder.js`: maximum
instantaneous speed of landmark `partId` over consecutive frame pairs with
second index in `(startIndex, endIndex]`, skipping pairs with a
non-positive time delta, ignoring samples at or above 25 m/s, and rounding
the tracked maximum (initially 0) to two decimals. -/
def calculateMaxSpeedInRange (history : List Frame) (startIndex endIndex partId : ℕ)
    (scale : ℝ) : ℝ :=
  if endIndex ≤ startIndex then 0
  else
    round2 ((List.range' (startIndex + 1) (endIndex - startIndex)).foldl
      (fun maxSpeed i =>
        if dtAt history i ≤ 0 then maxSpeed
        else
          if distAt history partId i * scale / dtAt history i < 25 ∧
              maxSpeed < distAt history partId i * scale / dtAt history i then
            distAt history partId i * scale / dtAt history i
          else maxSpeed) 0)

/-- The metrics object produced by `calculateMetrics`. -/
structure Metrics where
  duration_sec : ℝ
  active_part : String
  max_speed_outbound : ℝ
  max_speed_return : ℝ
  apex_frame : ℕ

/-- `calculateMetrics` from `src/js/recorder.js`; the `history.length < 5`
guard, which makes the source return an empty object, is modelled as
`none`. -/
def calculateMetrics (history : List Frame) (heightCm : ℝ) : Option Metrics :=
  if history.length < 5 then none
  else
    let sel := selectActivePart history
    let heightScale := heightCm / 175.0
    let speedOut :=
      calculateMaxSpeedInRange history 0 sel.apexFrameIndex sel.activePartId heightScale
    let speedRet :=
      calculateMaxSpeedInRange history sel.apexFrameIndex (history.length - 1)
        sel.activePartId heightScale
    let durationSec :=
      ((history.getD (history.length - 1) frameZero).time -
        (history.getD 0 frameZero).time) / 1000
    some ⟨round2 durationSec, sel.activePartName, speedOut, speedRet, sel.apexFrameIndex⟩

/-- Specification-side description of C4: the valid instantaneous speed
samples of a phase, one per consecutive frame pair in the range, skipping
pairs with a non-positive time delta and discarding samples at or above
25 m/s. -/
def validSpeeds (history : List Frame) (startIndex endIndex partId : ℕ)
    (scale : ℝ) : List ℝ :=
  (List.range' (startIndex + 1) (endIndex - startIndex)).filterMap fun i =>
    if dtAt history i ≤ 0 then none
    else
      if distAt history partId i * scale / dtAt history i < 25 then
        some (distAt history partId i * scale / dtAt history i)
      else none

/-- Specification-side description of C4: the tracked maximum of a list of
speed samples, starting from 0. -/
def maxOf (l : List ℝ) : ℝ := l.foldl max 0

lemma scanPartAux_skip (partId : ℕ) (l : List Frame) :
    ∀ (i : ℕ) (acc : ℝ × ℕ),
      (∀ j (hj : j < l.length), partDist (l.get ⟨j, hj⟩) partId ≤ acc.1) →
      scanPartAux partId i acc l = acc := by
  induction l with
  | nil => intro i acc _; rfl
  | cons f rest ih =>
    intro i acc hall
    rw [scanPartAux]
    have h0 : partDist f partId ≤ acc.1 := hall 0 (by simp)
    rw [if_neg (not_lt.mpr h0)]
    exact ih (i + 1) acc (fun j hj => hall (j + 1) (Nat.succ_lt_succ hj))

lemma scanPartAux_fst_le (partId : ℕ) (l : List Frame) :
    ∀ (i : ℕ) (acc : ℝ × ℕ), acc.1 ≤ (scanPartAux partId i acc l).1 := by
  induction l with
  | nil => intro i acc; exact le_refl _
  | cons f rest ih =>
    intro i acc
    rw [scanPartAux]
    by_cases hd : acc.1 < partDist f partId
    · rw [if_pos hd]
      exact le_trans (le_of_lt hd) (ih (i + 1) (partDist f partId, i))
    · rw [if_neg hd]
      exact ih (i + 1) acc

lemma scanPart_fst_nonneg (history : List Frame) (partId : ℕ) :
    0 ≤ (scanPart history partId).1 :=
  scanPartAux_fst_le partId history 0 (0, 0)

lemma scanPartAux_argmax (partId : ℕ) :
    ∀ (l : List Frame) (k : ℕ) (hk : k < l.length) (i : ℕ) (acc : ℝ × ℕ),
      (∀ j (hj : j < l.length), j ≠ k →
        partDist (l.get ⟨j, hj⟩) partId < partDist (l.get ⟨k, hk⟩) partId) →
      acc.1 < partDist (l.get ⟨k, hk⟩) partId →
      scanPartAux partId i acc l = (partDist (l.get ⟨k, hk⟩) partId, i + k) := by
  intro l
  induction l with
  | nil => intro k hk; exact absurd hk (by simp)
  | cons f rest ih =>
    intro k hk i acc hall hacc
    match k with
    | 0 =>
      rw [scanPartAux]
      have hacc' : acc.1 < partDist f partId := hacc
      rw [if_pos hacc']
      rw [scanPartAux_skip partId rest (i + 1) (partDist f partId, i)
        (fun j hj => le_of_lt (hall (j + 1) (Nat.succ_lt_succ hj) (by omega)))]
      rfl
    | k' + 1 =>
      rw [scanPartAux]
      have hk' : k' < rest.length := Nat.lt_of_succ_lt_succ hk
      have hrec := ih k' hk' (i + 1)
        (if acc.1 < partDist f partId then (partDist f partId, i) else acc)
        (fun j hj hne => hall (j + 1) (Nat.succ_lt_succ hj) (by omega))
        (by
          by_cases hd : acc.1 < partDist f partId
          · rw [if_pos hd]
            exact hall 0 (by simp) (by omega)
          · rw [if_neg hd]
            exact hacc)
      rw [hrec]
      rw [show i + 1 + k' = i + (k' + 1) by omega]
      rfl

lemma scanPart_argmax (history : List Frame) (partId k : ℕ) (hk : k < history.length)
    (hall : ∀ j (hj : j < history.length), j ≠ k →
      partDist (history.get ⟨j, hj⟩) partId < partDist (history.get ⟨k, hk⟩) partId)
    (hpos : 0 < partDist (history.get ⟨k, hk⟩) partId) :
    scanPart history partId = (partDist (history.get ⟨k, hk⟩) partId, k) := by
  rw [scanPart, scanPartAux_argmax partId history k hk 0 (0, 0) hall hpos]
  rw [Nat.zero_add]

lemma selStep_update (history : List Frame) (acc : Sel) (part : ℕ × String)
    (h : acc.maxExtension < (scanPart history part.1).1) :
    selStep history acc part =
      ⟨(scanPart history part.1).1, part.1, part.2, (scanPart history part.1).2⟩ := by
  simp only [selStep]
  rw [if_pos h]

lemma selStep_keep (history : List Frame) (acc : Sel) (part : ℕ × String)
    (h : ¬ acc.maxExtension < (scanPart history part.1).1) :
    selStep history acc part = acc := by
  simp only [selStep]
  rw [if_neg h]

lemma foldl_selStep_keep (history : List Frame) (ps : List (ℕ × String)) :
    ∀ acc : Sel, (∀ q ∈ ps, (scanPart history q.1).1 ≤ acc.maxExtension) →
      ps.foldl (selStep history) acc = acc := by
  induction ps with
  | nil => intro acc _; rfl
  | cons p rest ih =>
    intro acc hall
    rw [List.foldl_cons, selStep_keep _ _ _ (not_lt.mpr (hall p (by simp)))]
    exact ih acc (fun q hq => hall q (by simp [hq]))

lemma foldl_selStep_max_lt (history : List Frame) (ps : List (ℕ × String)) (c : ℝ) :
    ∀ acc : Sel, (∀ q ∈ ps, (scanPart history q.1).1 < c) → acc.maxExtension < c →
      (ps.foldl (selStep history) acc).maxExtension < c := by
  induction ps with
  | nil => intro acc _ h; exact h
  | cons p rest ih =>
    intro acc hall hacc
    rw [List.foldl_cons]
    apply ih _ (fun q hq => hall q (by simp [hq]))
    by_cases h : acc.maxExtension < (scanPart history p.1).1
    · rw [selStep_update _ _ _ h]
      exact hall p (by simp)
    · rw [selStep_keep _ _ _ h]
      exact hacc

lemma selectActivePart_eq (history : List Frame) (partId : ℕ) (pname : String)
    (hmem : (partId, pname) ∈ partsList)
    (hpos : 0 < (scanPart history partId).1)
    (hoth : ∀ q ∈ partsList, q.1 ≠ partId →
      (scanPart history q.1).1 < (scanPart history partId).1) :
    selectActivePart history =
      ⟨(scanPart history partId).1, partId, pname, (scanPart history partId).2⟩ := by
  have step : ∀ (pre post : List (ℕ × String)),
      partsList = pre ++ (partId, pname) :: post →
      (∀ q ∈ pre, q.1 ≠ partId) → (∀ q ∈ post, q.1 ≠ partId) →
      selectActivePart history =
        ⟨(scanPart history partId).1, partId, pname, (scanPart history partId).2⟩ := by
    intro pre post hsplit hpre hpost
    rw [selectActivePart, hsplit, List.foldl_append, List.foldl_cons]
    have hacc : (pre.foldl (selStep history) ⟨0, 20, "right_hand", 0⟩).maxExtension <
        (scanPart history partId).1 :=
      foldl_selStep_max_lt history pre _ _
        (fun q hq => hoth q (hsplit ▸ (by simp [hq])) (hpre q hq)) hpos
    rw [selStep_update _ _ _ hacc]
    exact foldl_selStep_keep history post _
      (fun q hq => le_of_lt (hoth q (hsplit ▸ (by simp [hq])) (hpost q hq)))
  simp only [partsList, List.mem_cons, List.not_mem_nil, or_false] at hmem
  rcases hmem with h | h | h | h
  · injection h with h1 h2
    subst h1; subst h2
    exact step [] [(20, "right_hand"), (31, "left_foot"), (32, "right_foot")] rfl
      (by intro q hq; simp at hq)
      (by intro q hq; simp only [List.mem_cons, List.not_mem_nil, or_false] at hq
          rcases hq with h | h | h <;> subst h <;> norm_num)
  · injection h with h1 h2
    subst h1; subst h2
    exact step [(19, "left_hand")] [(31, "left_foot"), (32, "right_foot")] rfl
      (by intro q hq; simp only [List.mem_cons, List.not_mem_nil, or_false] at hq
          subst hq; norm_num)
      (by intro q hq; simp only [List.mem_cons, List.not_mem_nil, or_false] at hq
          rcases hq with h | h <;> subst h <;> norm_num)
  · injection h with h1 h2
    subst h1; subst h2
    exact step [(19, "left_hand"), (20, "right_hand")] [(32, "right_foot")] rfl
      (by intro q hq; simp only [List.mem_cons, List.not_mem_nil, or_false] at hq
          rcases hq with h | h <;> subst h <;> norm_num)
      (by intro q hq; simp only [List.mem_cons, List.not_mem_nil, or_false] at hq
          subst hq; norm_num)
  · injection h with h1 h2
    subst h1; subst h2
    exact step [(19, "left_hand"), (20, "right_hand"), (31, "left_foot")] [] rfl
      (by intro q hq; simp only [List.mem_cons, List.not_mem_nil, or_false] at hq
          rcases hq with h | h | h <;> subst h <;> norm_num)
      (by intro q hq; simp at hq)

/-- C3: for a window of at least 5 frames in which candidate limb `partId`
attains its hip-distance maximum uniquely at frame `k`, strictly above
every other candidate's maximum over the whole window, `calculateMetrics`
succeeds, reports that limb as `active_part`, and reports `k` (an index
into the original window) as `apex_frame`.  The hypotheses hold in
particular for a window where that limb moves monotonically away from the
hip-center over frames `0..k` and monotonically back afterwards while the
other candidates stay at smaller hip distances. -/
theorem c3_metrics_active_part (history : List Frame) (heightCm : ℝ)
    (partId : ℕ) (pname : String) (k : ℕ)
    (hlen : 5 ≤ history.length)
    (hmem : (partId, pname) ∈ partsList)
    (hk : k < history.length)
    (hpk : ∀ j (hj : j < history.length), j ≠ k →
      partDist (history.get ⟨j, hj⟩) partId < partDist (history.get ⟨k, hk⟩) partId)
    (hoth : ∀ q ∈ partsList, q.1 ≠ partId →
      (scanPart history q.1).1 < partDist (history.get ⟨k, hk⟩) partId) :
    ∃ m, calculateMetrics history heightCm = some m ∧
      m.active_part = pname ∧ m.apex_frame = k := by
  have hDpos : 0 < partDist (history.get ⟨k, hk⟩) partId := by
    by_cases hp : partId = 19
    · exact lt_of_le_of_lt (scanPart_fst_nonneg history 20)
        (hoth (20, "right_hand") (by simp [partsList]) (by simp [hp]))
    · exact lt_of_le_of_lt (scanPart_fst_nonneg history 19)
        (hoth (19, "left_hand") (by simp [partsList]) (by simp [Ne.symm hp]))
  have hscan := scanPart_argmax history partId k hk hpk hDpos
  have hsel := selectActivePart_eq history partId pname hmem
    (by rw [hscan]; exact hDpos)
    (by intro q hq hne; rw [hscan]; exact hoth q hq hne)
  simp only [calculateMetrics]
  rw [if_neg (show ¬ history.length < 5 by omega), hsel, hscan]
  exact ⟨_, rfl, rfl, rfl⟩

/-- C10: for a window of at least 5 frames in which every candidate limb
coincides with the hip-midpoint in every frame (all hip distances zero),
`calculateMetrics` still succeeds and reports the built-in defaults:
`right_hand` as the active part and apex frame 0. -/
theorem c10_metrics_defaults (history : List Frame) (heightCm : ℝ)
    (hlen : 5 ≤ history.length)
    (hzero : ∀ f ∈ history, ∀ q ∈ partsList, partDist f q.1 = 0) :
    ∃ m, calculateMetrics history heightCm = some m ∧
      m.active_part = "right_hand" ∧ m.apex_frame = 0 := by
  have hsel : selectActivePart history = ⟨0, 20, "right_hand", 0⟩ := by
    rw [selectActivePart]
    apply foldl_selStep_keep
    intro q hq
    have hzq : scanPart history q.1 = (0, 0) := by
      rw [scanPart]
      apply scanPartAux_skip
      intro j hj
      rw [hzero (history.get ⟨j, hj⟩) (List.get_mem history j hj) q hq]
    rw [hzq]
  simp only [calculateMetrics]
  rw [if_neg (show ¬ history.length < 5 by omega), hsel]
  exact ⟨_, rfl, rfl, rfl⟩

/-- Witness frame family for C3/C10: landmark 19 (left hand) at `(v,0,0)`,
every other landmark (including both hips) at the origin, captured at time
`t` ms. -/
def wFrame (v t : ℝ) : Frame :=
  ⟨t, (List.range 33).map fun i => if i = 19 then ⟨v, 0, 0, 0⟩ else ptZero⟩

lemma wFrame_pose_getD (v t : ℝ) (i : ℕ) (h : i < 33) :
    (wFrame v t).pose.getD i ptZero =
      if i = 19 then ⟨v, 0, 0, 0⟩ else ptZero := by
  simp only [wFrame]
  exact getD_range33 _ i h

lemma partDist_wFrame_19 (v t : ℝ) (hv : 0 ≤ v) : partDist (wFrame v t) 19 = v := by
  have h19 : (wFrame v t).pose.getD 19 ptZero = ⟨v, 0, 0, 0⟩ := by
    rw [wFrame_pose_getD v t 19 (by norm_num)]; norm_num
  have h23 : (wFrame v t).pose.getD 23 ptZero = ptZero := by
    rw [wFrame_pose_getD v t 23 (by norm_num)]; norm_num
  have h24 : (wFrame v t).pose.getD 24 ptZero = ptZero := by
    rw [wFrame_pose_getD v t 24 (by norm_num)]; norm_num
  rw [partDist, h19, h23, h24, getMidPoint, getDistance]
  simp only [ptZero]
  norm_num
  exact Real.sqrt_sq hv

lemma partDist_wFrame_other (v t : ℝ) (pid : ℕ) (h33 : pid < 33) (hne : pid ≠ 19) :
    partDist (wFrame v t) pid = 0 := by
  have hp : (wFrame v t).pose.getD pid ptZero = ptZero := by
    rw [wFrame_pose_getD v t pid h33, if_neg hne]
  have h23 : (wFrame v t).pose.getD 23 ptZero = ptZero := by
    rw [wFrame_pose_getD v t 23 (by norm_num)]; norm_num
  have h24 : (wFrame v t).pose.getD 24 ptZero = ptZero := by
    rw [wFrame_pose_getD v t 24 (by norm_num)]; norm_num
  rw [partDist, hp, h23, h24, getMidPoint, getDistance]
  simp only [ptZero]
  norm_num

/-- Witness window for C3: the left hand moves out for frames 0..2 and back
for frames 2..4, every other candidate stays on the hip-midpoint. -/
def c3History : List Frame :=
  [wFrame 0 0, wFrame 1 100, wFrame 2 200, wFrame 1 300, wFrame 0 400]

lemma c3_scan_other (pid : ℕ) (h33 : pid < 33) (hne : pid ≠ 19) :
    scanPart c3History pid = (0, 0) := by
  rw [scanPart]
  apply scanPartAux_skip
  intro j hj
  have hj5 : j < 5 := by simpa [c3History] using hj
  interval_cases j
  · exact le_of_eq (partDist_wFrame_other 0 0 pid h33 hne)
  · exact le_of_eq (partDist_wFrame_other 1 100 pid h33 hne)
  · exact le_of_eq (partDist_wFrame_other 2 200 pid h33 hne)
  · exact le_of_eq (partDist_wFrame_other 1 300 pid h33 hne)
  · exact le_of_eq (partDist_wFrame_other 0 400 pid h33 hne)

/-- Witness for C3 at a concrete input. -/
theorem c3_metrics_active_part_witness :
    ∃ m, calculateMetrics c3History 175 = some m ∧
      m.active_part = "left_hand" ∧ m.apex_frame = 2 := by
  have hk : (2 : ℕ) < c3History.length := by norm_num [c3History]
  have h2 : partDist (c3History.get ⟨2, hk⟩) 19 = 2 :=
    partDist_wFrame_19 2 200 (by norm_num)
  apply c3_metrics_active_part c3History 175 19 "left_hand" 2
    (by norm_num [c3History]) (by simp [partsList]) hk
  · intro j hj hne
    rw [h2]
    have hj5 : j < 5 := by simpa [c3History] using hj
    interval_cases j
    · exact lt_of_le_of_lt (le_of_eq (partDist_wFrame_19 0 0 le_rfl)) (by norm_num)
    · exact lt_of_le_of_lt (le_of_eq (partDist_wFrame_19 1 100 (by norm_num))) (by norm_num)
    · exact absurd rfl hne
    · exact lt_of_le_of_lt (le_of_eq (partDist_wFrame_19 1 300 (by norm_num))) (by norm_num)
    · exact lt_of_le_of_lt (le_of_eq (partDist_wFrame_19 0 400 le_rfl)) (by norm_num)
  · intro q hq hne
    simp only [partsList, List.mem_cons, List.not_mem_nil, or_false] at hq
    rcases hq with h | h | h | h <;> subst h
    · exact absurd rfl hne
    · rw [c3_scan_other 20 (by norm_num) (by norm_num), h2]; norm_num
    · rw [c3_scan_other 31 (by norm_num) (by norm_num), h2]; norm_num
    · rw [c3_scan_other 32 (by norm_num) (by norm_num), h2]; norm_num

/-- Witness for C10 at a concrete input: five identical frames with every
landmark at the origin. -/
theorem c10_metrics_defaults_witness :
    ∃ m, calculateMetrics (List.replicate 5 (wFrame 0 0)) 175 = some m ∧
      m.active_part = "right_hand" ∧ m.apex_frame = 0 := by
  apply c10_metrics_defaults _ 175 (by simp)
  intro f hf q hq
  rw [List.eq_of_mem_replicate hf]
  simp only [partsList, List.mem_cons, List.not_mem_nil, or_false] at hq
  rcases hq with h | h | h | h <;> subst h
  · exact partDist_wFrame_19 0 0 le_rfl
  · exact partDist_wFrame_other 0 0 20 (by norm_num) (by norm_num)
  · exact partDist_wFrame_other 0 0 31 (by norm_num) (by norm_num)
  · exact partDist_wFrame_other 0 0 32 (by norm_num) (by norm_num)

lemma step_max (s m0 : ℝ) (h2 : s < 25) :
    (if s < 25 ∧ m0 < s then s else m0) = max m0 s := by
  rcases lt_or_le m0 s with h | h
  · rw [if_pos ⟨h2, h⟩, max_eq_right (le_of_lt h)]
  · rw [if_neg (fun hc => absurd hc.2 (not_lt.mpr h)), max_eq_left h]

lemma foldl_speed_eq (history : List Frame) (partId : ℕ) (scale : ℝ) :
    ∀ (l : List ℕ) (m0 : ℝ),
      l.foldl (fun maxSpeed i =>
        if dtAt history i ≤ 0 then maxSpeed
        else
          if distAt history partId i * scale / dtAt history i < 25 ∧
              maxSpeed < distAt history partId i * scale / dtAt history i then
            distAt history partId i * scale / dtAt history i
          else maxSpeed) m0 =
      (l.filterMap fun i =>
        if dtAt history i ≤ 0 then none
        else
          if distAt history partId i * scale / dtAt history i < 25 then
            some (distAt history partId i * scale / dtAt history i)
          else none).foldl max m0 := by
  intro l
  induction l with
  | nil => intro m0; rfl
  | cons i rest ih =>
    intro m0
    simp only [List.foldl_cons, List.filterMap_cons]
    by_cases h1 : dtAt history i ≤ 0
    · rw [if_pos h1, if_pos h1]
      exact ih m0
    · rw [if_neg h1, if_neg h1]
      by_cases h2 : distAt history partId i * scale / dtAt history i < 25
      · rw [if_pos h2, step_max _ m0 h2]
        exact ih (max m0 (distAt history partId i * scale / dtAt history i))
      · rw [if_neg h2, if_neg (fun hc => absurd hc.1 h2)]
        exact ih m0

lemma foldl_max_const (v : ℝ) : ∀ (l : List ℝ) (m0 : ℝ), l ≠ [] →
    (∀ a ∈ l, a = v) → l.foldl max m0 = max m0 v := by
  intro l
  induction l with
  | nil => intro m0 h; exact absurd rfl h
  | cons a rest ih =>
    intro m0 _ hall
    rw [List.foldl_cons, hall a (by simp)]
    rcases eq_or_ne rest [] with h | h
    · rw [h]; rfl
    · rw [ih (max m0 v) h (fun b hb => hall b (by simp [hb]))]
      rw [max_assoc, max_self]

/-- C4: the per-phase maximum speed reported by `calculateMaxSpeedInRange`
equals the two-decimal rounding of the maximum (tracked from 0) of the
valid instantaneous samples — one `dist * scale / dt` sample per
consecutive frame pair in the range, with pairs of non-positive time delta
skipped and samples at or above 25 m/s silently excluded; in particular,
for constant per-frame displacement `d` over constant positive `dt` with
`d * scale / dt < 25`, the reported maximum is `round2 (d * scale / dt)`. -/
theorem c4_max_speed (history : List Frame) (startIndex endIndex partId : ℕ)
    (scale : ℝ) :
    calculateMaxSpeedInRange history startIndex endIndex partId scale =
      round2 (maxOf (validSpeeds history startIndex endIndex partId scale)) ∧
    (∀ d dt0 : ℝ, startIndex < endIndex → 0 < dt0 → 0 ≤ scale →
      d * scale / dt0 < 25 →
      (∀ i ∈ List.range' (startIndex + 1) (endIndex - startIndex),
        dtAt history i = dt0 ∧ distAt history partId i = d) →
      calculateMaxSpeedInRange history startIndex endIndex partId scale =
        round2 (d * scale / dt0)) := by
  have hgen : calculateMaxSpeedInRange history startIndex endIndex partId scale =
      round2 (maxOf (validSpeeds history startIndex endIndex partId scale)) := by
    by_cases hse : endIndex ≤ startIndex
    · rw [calculateMaxSpeedInRange, if_pos hse, validSpeeds,
        show endIndex - startIndex = 0 by omega]
      rw [show List.range' (startIndex + 1) 0 = [] from rfl, List.filterMap_nil]
      rw [show maxOf [] = 0 from rfl, round2]
      have hfl : ⌊(0 : ℝ) * 100 + 1 / 2⌋ = 0 := by
        rw [Int.floor_eq_zero_iff]
        constructor <;> norm_num
      rw [hfl]
      norm_num
    · rw [calculateMaxSpeedInRange, if_neg hse, validSpeeds, maxOf, foldl_speed_eq]
  refine ⟨hgen, ?_⟩
  intro d dt0 hse hdt hsc hlt hconst
  have hmem1 : startIndex + 1 ∈ List.range' (startIndex + 1) (endIndex - startIndex) := by
    rw [List.mem_range'_1]
    omega
  have hd0 : 0 ≤ d := by
    rw [← (hconst _ hmem1).2]
    exact Real.sqrt_nonneg _
  have hv0 : 0 ≤ d * scale / dt0 := div_nonneg (mul_nonneg hd0 hsc) (le_of_lt hdt)
  have hval : maxOf (validSpeeds history startIndex endIndex partId scale) =
      d * scale / dt0 := by
    rw [validSpeeds, maxOf]
    have hne : ((List.range' (startIndex + 1) (endIndex - startIndex)).filterMap fun i =>
        if dtAt history i ≤ 0 then none
        else
          if distAt history partId i * scale / dtAt history i < 25 then
            some (distAt history partId i * scale / dtAt history i)
          else none) ≠ [] := by
      apply List.ne_nil_of_mem (a := d * scale / dt0)
      rw [List.mem_filterMap]
      refine ⟨startIndex + 1, hmem1, ?_⟩
      rw [(hconst _ hmem1).1, (hconst _ hmem1).2, if_neg (not_le.mpr hdt), if_pos hlt]
    have hall : ∀ a ∈ (List.range' (startIndex + 1) (endIndex - startIndex)).filterMap
        (fun i =>
          if dtAt history i ≤ 0 then none
          else
            if distAt history partId i * scale / dtAt history i < 25 then
              some (distAt history partId i * scale / dtAt history i)
            else none), a = d * scale / dt0 := by
      intro a ha
      rw [List.mem_filterMap] at ha
      obtain ⟨i, hi, hfi⟩ := ha
      rw [(hconst i hi).1, (hconst i hi).2, if_neg (not_le.mpr hdt), if_pos hlt] at hfi
      exact (Option.some_inj.mp hfi).symm
    rw [foldl_max_const (d * scale / dt0) _ 0 hne hall, max_eq_right hv0]
  rw [hgen, hval]

/-- Witness frame family for C4: landmark 20 (right hand) at `(v,0,0)`,
captured at time `t` ms. -/
def c4Frame (v t : ℝ) : Frame :=
  ⟨t, (List.range 33).map fun i => if i = 20 then ⟨v, 0, 0, 0⟩ else ptZero⟩

lemma c4Frame_pose_getD (v t : ℝ) (i : ℕ) (h : i < 33) :
    (c4Frame v t).pose.getD i ptZero =
      if i = 20 then ⟨v, 0, 0, 0⟩ else ptZero := by
  simp only [c4Frame]
  exact getD_range33 _ i h

/-- Witness window for C4: the right hand moves 1 unit per frame, with
1000 ms between frames (a constant 1 m/s sample per pair). -/
def c4History : List Frame := [c4Frame 0 0, c4Frame 1 1000, c4Frame 2 2000]

lemma c4_dist_step (v1 t1 v2 t2 : ℝ) (h : 0 ≤ v2 - v1) :
    getDistance ((c4Frame v1 t1).pose.getD 20 ptZero)
      ((c4Frame v2 t2).pose.getD 20 ptZero) = v2 - v1 := by
  rw [c4Frame_pose_getD v1 t1 20 (by norm_num), c4Frame_pose_getD v2 t2 20 (by norm_num)]
  norm_num [getDistance]
  rw [show (v1 - v2) ^ 2 = (v2 - v1) ^ 2 by ring, Real.sqrt_sq h]

lemma c4History_const :
    ∀ i ∈ List.range' (0 + 1) (2 - 0), dtAt c4History i = 1 ∧
      distAt c4History 20 i = 1 := by
  intro i hi
  rw [List.mem_range'_1] at hi
  have hor : i = 1 ∨ i = 2 := by omega
  rcases hor with rfl | rfl
  · constructor
    · rw [dtAt]
      norm_num [c4History, List.getD_cons_succ, List.getD_cons_zero, c4Frame]
    · rw [distAt]
      norm_num only [c4History, List.getD_cons_succ, List.getD_cons_zero]
      rw [c4_dist_step 0 0 1 1000 (by norm_num)]
      norm_num
  · constructor
    · rw [dtAt]
      norm_num [c4History, List.getD_cons_succ, List.getD_cons_zero, c4Frame]
    · rw [distAt]
      norm_num only [c4History, List.getD_cons_succ, List.getD_cons_zero]
      rw [c4_dist_step 1 1000 2 2000 (by norm_num)]
      norm_num

/-- Witness for C4 at a concrete input. -/
theorem c4_max_speed_witness :
    calculateMaxSpeedInRange c4History 0 2 20 1 =
      round2 (maxOf (validSpeeds c4History 0 2 20 1)) ∧
    calculateMaxSpeedInRange c4History 0 2 20 1 = round2 (1 * 1 / 1) := by
  have h := c4_max_speed c4History 0 2 20 1
  exact ⟨h.1, h.2 1 1 (by norm_num) (by norm_num) (by norm_num) (by norm_num)
    c4History_const⟩

end
